import Mathlib

/-
Shallow embedding of the bustub storage-engine fork under verification:
the LRU replacer (src/buffer/lru_replacer.cpp), the buffer pool manager
(src/buffer/buffer_pool_manager.cpp), the B+ tree leaf page
(src/page/b_plus_tree_leaf_page.cpp) and the B+ tree index
(src/index/b_plus_tree.cpp).

Modelling conventions:
- page_id_t and frame_id_t are C++ int32_t; page and frame ids that occur in
  executed paths are small and non-negative, with -1 as INVALID_PAGE_ID and
  INVALID_FRAME_ID, so both are modelled as Int with sentinel -1.
- a page data buffer is abstracted to a single Nat (the byte image); 0 is the
  zeroed image that a freshly reset frame holds.
- std::unordered_map is modelled as an association list: find is the first
  match, insert does not overwrite an existing key, erase removes the key.
- std::list of the replacer is modelled as a Lean list with the front at the
  head, as in the C++ (push_front adds candidates, back is the LRU victim).
- C++ asserts are modelled as Except.error results; functions without asserts
  that can fail return pairs or options exactly as the source returns
  bool / nullptr.
-/

set_option autoImplicit false

namespace Bustub

/-! ## Association-list helpers (std::unordered_map, disk image) -/

/-- unordered_map::find, first matching key. -/
def alookup (m : List (Int × Int)) (k : Int) : Option Int :=
  match m with
  | [] => none
  | (a, b) :: t => if a = k then some b else alookup t k

/-- unordered_map::erase by key. -/
def aerase (m : List (Int × Int)) (k : Int) : List (Int × Int) :=
  match m with
  | [] => []
  | (a, b) :: t => if a = k then t else (a, b) :: aerase t k

/-- unordered_map::insert: no effect when the key is already present. -/
def ainsert (m : List (Int × Int)) (k v : Int) : List (Int × Int) :=
  match alookup m k with
  | some _ => m
  | none => (k, v) :: m

/-- Disk image lookup (DiskManager::ReadPage source); pages never written read
as the zeroed image 0. -/
def dread (d : List (Int × Nat)) (k : Int) : Nat :=
  match d with
  | [] => 0
  | (a, b) :: t => if a = k then b else dread t k

/-- DiskManager::WritePage: overwrite the stored image for a page id. -/
def dwrite (d : List (Int × Nat)) (k : Int) (v : Nat) : List (Int × Nat) :=
  match d with
  | [] => [(k, v)]
  | (a, b) :: t => if a = k then (k, v) :: t else (a, b) :: dwrite t k v

/-- Lookup on the disk image, to state persistence facts. -/
def dlookup (d : List (Int × Nat)) (k : Int) : Option Nat :=
  match d with
  | [] => none
  | (a, b) :: t => if a = k then some b else dlookup t k

theorem dlookup_dwrite_self (d : List (Int × Nat)) (k : Int) (v : Nat) :
    dlookup (dwrite d k v) k = some v := by
  induction d with
  | nil => simp [dwrite, dlookup]
  | cons p t ih =>
    obtain ⟨a, b⟩ := p
    by_cases h : a = k
    · simp [dwrite, dlookup, h]
    · simp [dwrite, dlookup, h, ih]

theorem alookup_aerase_none (m : List (Int × Int)) (k j : Int)
    (h : alookup m k = none) : alookup (aerase m j) k = none := by
  induction m with
  | nil => simp [aerase, alookup]
  | cons p t ih =>
    obtain ⟨a, b⟩ := p
    by_cases ha : a = k
    · simp [alookup, ha] at h
    · simp only [alookup, if_neg ha] at h
      by_cases hj : a = j
      · simpa [aerase, hj] using h
      · simpa [aerase, alookup, hj, ha] using ih h

theorem alookup_ainsert_self (m : List (Int × Int)) (k v : Int)
    (h : alookup m k = none) : alookup (ainsert m k v) k = some v := by
  simp [ainsert, h, alookup]

/-! ## LRUReplacer (src/buffer/lru_replacer.cpp)

State is the capacity plus `lru_list_`; `lru_map_` only indexes the list
(it holds an iterator for every list element), so membership in the list
models membership in the map. Front of the list is the most recently
unpinned frame, the back is the LRU victim, exactly as the C++ pushes to
the front and victimizes the back. -/

structure LRUReplacer where
  capacity : Nat
  lru_list : List Int
deriving DecidableEq, Repr

/-- LRUReplacer::Victim: take and remove the back of the list; report failure
on an empty candidate set. Returns the out-parameter value and the new state. -/
def LRUReplacer.Victim (r : LRUReplacer) : Option Int × LRUReplacer :=
  match r.lru_list.getLast? with
  | none => (none, r)
  | some f => (some f, { r with lru_list := r.lru_list.dropLast })

/-- LRUReplacer::Pin: erase the frame when present, otherwise no-op. -/
def LRUReplacer.Pin (r : LRUReplacer) (f : Int) : LRUReplacer :=
  if f ∈ r.lru_list then { r with lru_list := r.lru_list.erase f } else r

/-- Closed form of the while loop in LRUReplacer::Unpin that pops the back
while Size() >= capacity_: popping the back of a list of length >= cap until
the length is cap - 1 keeps the first cap - 1 elements. (With cap = 0 the C++
loop would pop an empty list, which is never exercised: the buffer pool always
constructs the replacer with pool_size >= 1.) -/
def LRUReplacer.trimLoop (cap : Nat) (l : List Int) : List Int :=
  if l.length < cap then l else l.take (cap - 1)

/-- LRUReplacer::Unpin: no-op when the frame is already a candidate; otherwise
evict from the back while at capacity, then push the frame to the front. -/
def LRUReplacer.Unpin (r : LRUReplacer) (f : Int) : LRUReplacer :=
  if f ∈ r.lru_list then r
  else { r with lru_list := f :: LRUReplacer.trimLoop r.capacity r.lru_list }

/-- LRUReplacer::Size. -/
def LRUReplacer.Size (r : LRUReplacer) : Nat := r.lru_list.length

theorem trimLoop_of_lt (cap : Nat) (l : List Int) (h : l.length < cap) :
    LRUReplacer.trimLoop cap l = l := by
  simp [LRUReplacer.trimLoop, h]

theorem Unpin_not_mem (r : LRUReplacer) (f : Int) (h : f ∉ r.lru_list) :
    r.Unpin f = { r with lru_list := f :: LRUReplacer.trimLoop r.capacity r.lru_list } := by
  simp [LRUReplacer.Unpin, h]

theorem Unpin_mem (r : LRUReplacer) (f : Int) (h : f ∈ r.lru_list) :
    r.Unpin f = r := by
  simp [LRUReplacer.Unpin, h]

theorem Pin_not_mem (r : LRUReplacer) (f : Int) (h : f ∉ r.lru_list) :
    r.Pin f = r := by
  simp [LRUReplacer.Pin, h]

/-! ## Page and BufferPoolManager (src/buffer/buffer_pool_manager.cpp) -/

/-- A buffer frame: page metadata plus the (abstracted) byte image. -/
structure Page where
  page_id : Int
  pin_count : Int
  is_dirty : Bool
  data : Nat
deriving DecidableEq, Repr

/-- The state a frame has after construction and after a reset. -/
def Page.invalid : Page := { page_id := -1, pin_count := 0, is_dirty := false, data := 0 }

instance : Inhabited Page := ⟨Page.invalid⟩

/-- Modelled from the spec: Page::ResetAll lives in the page header, which is
not under src. The spec (NewPageImpl step 3, DeletePageImpl step 3) requires
it to zero out memory and reset the metadata: page id becomes
INVALID_PAGE_ID, pin count 0, dirty bit cleared. -/
def Page.ResetAll (_p : Page) : Page := Page.invalid

/-- Buffer pool state. `pages` is the frame array indexed by frame id;
`disk` is the disk manager image; `next_page_id` is the AllocatePage counter
and `dealloc_log` records every DeallocatePage call, so the deallocation
contract is statable. -/
structure BufferPoolManager where
  pool_size : Nat
  pages : List Page
  page_table : List (Int × Int)
  free_list : List Int
  replacer : LRUReplacer
  disk : List (Int × Nat)
  next_page_id : Int
  dealloc_log : List Int
deriving DecidableEq, Repr

namespace BufferPoolManager

/-- Modelled from the spec: the GetFrame helper lives in the header, which is
not under src; it is the page-table probe the spec describes (a page is
resident iff it appears in the table), returning INVALID_FRAME_ID = -1 when
the page id is absent. -/
def GetFrame (s : BufferPoolManager) (pid : Int) : Int :=
  (alookup s.page_table pid).getD (-1)

/-- GetPage(frame_id): the frame array cell. -/
def GetPage (s : BufferPoolManager) (fid : Int) : Page :=
  s.pages.getD fid.toNat Page.invalid

/-- Replace the frame array cell `fid`. -/
def SetPage (s : BufferPoolManager) (fid : Int) (p : Page) : BufferPoolManager :=
  { s with pages := s.pages.set fid.toNat p }

/-- BufferPoolManager::GetAvailableFrame: pop the free list first, else ask
the replacer for a victim, writing a dirty victim back (and zeroing its pin
count, as the source does only in the dirty case) and erasing its page-table
entry. Returns INVALID_FRAME_ID = -1 when both sources are empty. -/
def GetAvailableFrame (s : BufferPoolManager) : Int × BufferPoolManager :=
  match s.free_list with
  | fid :: rest => (fid, { s with free_list := rest })
  | [] =>
    match s.replacer.Victim with
    | (some fid, rep1) =>
      let s1 := { s with replacer := rep1 }
      let p := s1.GetPage fid
      let pid := p.page_id
      let s2 :=
        if p.is_dirty then
          { s1 with disk := dwrite s1.disk pid p.data,
                    pages := s1.pages.set fid.toNat { p with pin_count := 0 } }
        else s1
      (fid, { s2 with page_table := aerase s2.page_table pid })
    | (none, _) => (-1, s)

/-- Failure carrier for the C++ asserts in the buffer pool and the tree. -/
inductive Failure where
  | assertInvalidPageId
  | pageMissing
deriving DecidableEq, Repr

/-- BufferPoolManager::FetchPageImpl. Asserts page_id != INVALID_PAGE_ID, then
either pins the resident frame or repurposes an available frame, reading the
page image from disk. Returns the frame id standing for the returned Page*,
or none for nullptr. -/
def FetchPageImpl (s : BufferPoolManager) (pid : Int) :
    Except Failure (Option Int × BufferPoolManager) :=
  if pid = -1 then Except.error Failure.assertInvalidPageId
  else
    let fid := s.GetFrame pid
    if fid ≠ -1 then
      let p := s.GetPage fid
      let s1 := s.SetPage fid { p with pin_count := p.pin_count + 1 }
      Except.ok (some fid, { s1 with replacer := s1.replacer.Pin fid })
    else
      match s.GetAvailableFrame with
      | (fid2, s1) =>
        if fid2 = -1 then Except.ok (none, s1)
        else
          let s2 := { s1 with page_table := ainsert s1.page_table pid fid2 }
          let p0 := s2.GetPage fid2
          let p1 := { p0 with data := dread s2.disk pid, page_id := pid,
                              pin_count := 1, is_dirty := false }
          let s3 := s2.SetPage fid2 p1
          Except.ok (some fid2, { s3 with replacer := s3.replacer.Pin fid2 })

/-- BufferPoolManager::UnpinPageImpl. Note the source order: the dirty bit is
set (when the argument is true) before the pin count is checked, so the
failing already-unpinned path still mutates the dirty bit. -/
def UnpinPageImpl (s : BufferPoolManager) (pid : Int) (is_dirty : Bool) :
    Bool × BufferPoolManager :=
  let fid := s.GetFrame pid
  if fid = -1 then (false, s)
  else
    let p0 := s.GetPage fid
    let p1 := if is_dirty then { p0 with is_dirty := is_dirty } else p0
    let s1 := s.SetPage fid p1
    if p1.pin_count ≤ 0 then (false, s1)
    else
      let p2 := { p1 with pin_count := p1.pin_count - 1 }
      let s2 := s1.SetPage fid p2
      if p2.pin_count = 0 then (true, { s2 with replacer := s2.replacer.Unpin fid })
      else (true, s2)

/-- BufferPoolManager::FlushPageImpl. Asserts page_id != INVALID_PAGE_ID;
returns true when the page is not resident; otherwise writes the page back
when dirty and then — as the source does — resets the frame, erases the
page-table entry, appends the frame to the free list, pins it out of the
replacer, and returns false. -/
def FlushPageImpl (s : BufferPoolManager) (pid : Int) :
    Except Failure (Bool × BufferPoolManager) :=
  if pid = -1 then Except.error Failure.assertInvalidPageId
  else
    let fid := s.GetFrame pid
    if fid = -1 then Except.ok (true, s)
    else
      let p := s.GetPage fid
      let s1 := if p.is_dirty then { s with disk := dwrite s.disk pid p.data } else s
      let s2 := s1.SetPage fid p.ResetAll
      let s3 := { s2 with page_table := aerase s2.page_table pid,
                          free_list := s2.free_list ++ [fid] }
      Except.ok (false, { s3 with replacer := s3.replacer.Pin fid })

/-- BufferPoolManager::NewPageImpl. Obtains an available frame, allocates a
fresh page id, resets the frame (zeroing it), pins it, installs the
page-table entry, and writes the zeroed image to disk before returning. -/
def NewPageImpl (s : BufferPoolManager) : Option Int × BufferPoolManager :=
  match s.GetAvailableFrame with
  | (fid, s1) =>
    if fid = -1 then (none, s1)
    else
      let p0 := s1.GetPage fid
      let new_pid := s1.next_page_id
      let s2 := { s1 with next_page_id := new_pid + 1 }
      let p1 := { p0.ResetAll with page_id := new_pid, pin_count := 1 }
      let s3 := s2.SetPage fid p1
      let s4 := { s3 with page_table := ainsert s3.page_table new_pid fid,
                          replacer := s3.replacer.Pin fid }
      let s5 := { s4 with disk := dwrite s4.disk p1.page_id p1.data }
      (some new_pid, s5)

/-- BufferPoolManager::DeletePageImpl. Asserts page_id != INVALID_PAGE_ID;
deallocates and answers true when the page is absent; refuses (false) while
pinned; otherwise deallocates, removes the page, resets the frame, returns
the frame to the free list — and, as the source does, returns false. -/
def DeletePageImpl (s : BufferPoolManager) (pid : Int) :
    Except Failure (Bool × BufferPoolManager) :=
  if pid = -1 then Except.error Failure.assertInvalidPageId
  else
    let fid := s.GetFrame pid
    if fid = -1 then
      Except.ok (true, { s with dealloc_log := s.dealloc_log ++ [pid] })
    else
      let p := s.GetPage fid
      if p.pin_count > 0 then Except.ok (false, s)
      else
        let s1 := { s with dealloc_log := s.dealloc_log ++ [pid] }
        let s2 := { s1 with page_table := aerase s1.page_table pid }
        let s3 := s2.SetPage fid p.ResetAll
        let s4 := { s3 with replacer := s3.replacer.Pin fid,
                            free_list := s3.free_list ++ [fid] }
        Except.ok (false, s4)

end BufferPoolManager

/-! ## GenericComparator

Modelled from the spec: the comparator/key-type families are external
collaborators (spec section 1); the comparator returns -1, 0 or 1, the three
values the leaf page binary search dispatches on. Keys are modelled as Int. -/

def cmpInt (a b : Int) : Int := if a < b then -1 else if b < a then 1 else 0

/-! ## BPlusTreeLeafPage (src/page/b_plus_tree_leaf_page.cpp)

The on-page entry array is modelled as a total function from slot index to
(key, value), together with the live-entry count `size`, because the source
reads slots beyond `size` (KeyIndex / KeyAt after an insertion point at the
end) and leaves stale slots behind (SetSize, RemoveAt). A fresh page is
zeroed (NewPageImpl resets the frame), so the initial array is constantly
(0, 0). C++ int loop bounds translate to Nat comparisons: the RemoveAt bound
i < GetSize() - 2 over int is i + 2 < size over Nat. -/

structure BPlusTreeLeafPage where
  arr : Nat → Int × Int
  size : Nat
  max_size : Nat
  parent_page_id : Int
  page_id : Int
  next_page_id : Int
  prev_page_id : Int

namespace BPlusTreeLeafPage

/-- B_PLUS_TREE_LEAF_PAGE_TYPE::Init. -/
def Init (page_id parent_id : Int) (max_size : Nat) : BPlusTreeLeafPage :=
  { arr := fun _ => (0, 0), size := 0, max_size := max_size,
    parent_page_id := parent_id, page_id := page_id,
    next_page_id := -1, prev_page_id := -1 }

/-- KeyAt. -/
def KeyAt (l : BPlusTreeLeafPage) (i : Nat) : Int := (l.arr i).1

/-- GetItem. -/
def GetItem (l : BPlusTreeLeafPage) (i : Nat) : Int × Int := l.arr i

/-- The binary-search loop body of KeyIndex; fuel bounds the iteration count
(the interval shrinks every round, so any fuel above size suffices) and is
only a device to keep the recursion structural. -/
def keyIndexGo (l : BPlusTreeLeafPage) (key : Int) :
    Nat → Nat → Nat → Nat
  | 0, left, _ => left
  | fuel + 1, left, right =>
    if left < right then
      let mid := (left + right) / 2
      let compare := cmpInt key (l.arr mid).1
      if compare = -1 then keyIndexGo l key fuel left mid
      else if compare = 1 then keyIndexGo l key fuel (mid + 1) right
      else mid
    else left

/-- KeyIndex: first index i with array[i].first >= key, by binary search. -/
def KeyIndex (l : BPlusTreeLeafPage) (key : Int) : Nat :=
  keyIndexGo l key (l.size + 1) 0 l.size

/-- CheckDuplicated. -/
def CheckDuplicated (l : BPlusTreeLeafPage) (key : Int) : Bool :=
  let index := l.KeyIndex key
  decide (index < l.size) && decide (cmpInt (l.KeyAt index) key = 0)

/-- InsertAt: shift array[index .. size) up by one and write the new pair.
The C++ loop runs i from size down to index + 1 writing array[i] = array[i-1],
so slot i of the result holds the old slot i - 1 for index < i <= size. -/
def InsertAt (l : BPlusTreeLeafPage) (index : Nat) (key value : Int) :
    BPlusTreeLeafPage :=
  { l with
    arr := fun i =>
      if i = index then (key, value)
      else if index < i ∧ i ≤ l.size then l.arr (i - 1)
      else l.arr i,
    size := l.size + 1 }

/-- Insert, returning the page and the returned size. -/
def Insert (l : BPlusTreeLeafPage) (key value : Int) : BPlusTreeLeafPage × Nat :=
  if l.size = 0 then
    let l1 := l.InsertAt 0 key value
    (l1, l1.size)
  else
    let index := l.KeyIndex key
    if cmpInt (l.KeyAt index) key = 0 then (l, l.size)
    else (l.InsertAt index key value, l.size + 1)

/-- RemoveAt. The source loop is `for (i = index; i < GetSize() - 2; ++i)`
(over C++ ints), i.e. i + 2 < size over Nat, so slot i of the result holds
the old slot i + 1 only for index <= i with i + 2 < size; the slot size - 2
is never overwritten. -/
def RemoveAt (l : BPlusTreeLeafPage) (index : Nat) : BPlusTreeLeafPage :=
  { l with
    arr := fun i => if index ≤ i ∧ i + 2 < l.size then l.arr (i + 1) else l.arr i,
    size := l.size - 1 }

/-- Lookup. -/
def Lookup (l : BPlusTreeLeafPage) (key : Int) : Option Int :=
  let index := l.KeyIndex key
  if cmpInt (l.KeyAt index) key = 0 then some (l.arr index).2 else none

/-- CopyLastFrom: append via InsertAt at the end. -/
def CopyLastFrom (l : BPlusTreeLeafPage) (item : Int × Int) : BPlusTreeLeafPage :=
  l.InsertAt l.size item.1 item.2

/-- CopyNFrom: repeated CopyLastFrom over the items. -/
def CopyNFrom (l : BPlusTreeLeafPage) (items : List (Int × Int)) : BPlusTreeLeafPage :=
  items.foldl CopyLastFrom l

/-- CopyFirstFrom. -/
def CopyFirstFrom (l : BPlusTreeLeafPage) (item : Int × Int) : BPlusTreeLeafPage :=
  l.InsertAt 0 item.1 item.2

/-- The live entries, array slots 0 .. size. -/
def entries (l : BPlusTreeLeafPage) : List (Int × Int) :=
  (List.range l.size).map l.arr

/-- The live keys in slot order. -/
def keys (l : BPlusTreeLeafPage) : List Int :=
  l.entries.map Prod.fst

/-- MoveAllTo: copy every live entry into the recipient, hand the next
pointer over, and clear this page. Returns (this page, recipient). -/
def MoveAllTo (l recipient : BPlusTreeLeafPage) :
    BPlusTreeLeafPage × BPlusTreeLeafPage :=
  let r1 := recipient.CopyNFrom l.entries
  let r2 := { r1 with next_page_id := l.next_page_id }
  ({ l with size := 0 }, r2)

/-- MoveFirstToEndOf: recipient appends GetItem(0), then this page RemoveAt 0.
Returns (this page, recipient). -/
def MoveFirstToEndOf (l recipient : BPlusTreeLeafPage) :
    BPlusTreeLeafPage × BPlusTreeLeafPage :=
  (l.RemoveAt 0, recipient.CopyLastFrom (l.GetItem 0))

/-- MoveLastToFrontOf: recipient CopyFirstFrom the last entry, then this page
RemoveAt (size - 1). Returns (this page, recipient). -/
def MoveLastToFrontOf (l recipient : BPlusTreeLeafPage) :
    BPlusTreeLeafPage × BPlusTreeLeafPage :=
  (l.RemoveAt (l.size - 1), recipient.CopyFirstFrom (l.arr (l.size - 1)))

/-- Modelled from the spec: GetMinSize lives in b_plus_tree_page.cpp, which is
not under src. Spec section 3: every leaf except a singleton-root leaf holds
at least the ceiling of (max - 1) / 2 entries, which is max / 2 rounded down. -/
def GetMinSize (l : BPlusTreeLeafPage) : Nat := l.max_size / 2

end BPlusTreeLeafPage

/-! ## BPlusTreeInternalPage

Modelled from the spec: b_plus_tree_internal_page.cpp is not under src (only
its callers in b_plus_tree.cpp are). Spec section 3 gives the data model —
an ordered array of (key, child_page_id) entries whose first key is an unused
sentinel — and sections 4.3 (Search, Coalesce semantics, Redistribute
semantics) give the operations the tree calls. Entries are held as a list;
the sentinel slot carries key 0. -/

structure BPlusTreeInternalPage where
  entries : List (Int × Int)
  max_size : Nat
  parent_page_id : Int
  page_id : Int
deriving DecidableEq, Repr

namespace BPlusTreeInternalPage

/-- Children count. -/
def size (n : BPlusTreeInternalPage) : Nat := n.entries.length

/-- KeyAt. -/
def KeyAt (n : BPlusTreeInternalPage) (i : Nat) : Int :=
  (n.entries.getD i (0, -1)).1

/-- ValueAt. -/
def ValueAt (n : BPlusTreeInternalPage) (i : Nat) : Int :=
  (n.entries.getD i (0, -1)).2

/-- SetKeyAt. -/
def SetKeyAt (n : BPlusTreeInternalPage) (i : Nat) (k : Int) : BPlusTreeInternalPage :=
  { n with entries := n.entries.set i (k, n.ValueAt i) }

/-- Modelled from the spec: locate the position of a child page id in its
parent (spec section 4.3, delete step 3). -/
def ValueIndex (n : BPlusTreeInternalPage) (v : Int) : Nat :=
  n.entries.findIdx (fun e => e.2 == v)

/-- Modelled from the spec: remove the parent entry at an index (spec
section 4.3, coalesce semantics). -/
def Remove (n : BPlusTreeInternalPage) (i : Nat) : BPlusTreeInternalPage :=
  { n with entries := n.entries.eraseIdx i }

/-- Modelled from the spec: an internal root left with one child promotes that
only child (spec section 4.3, AdjustRoot); returns child[0] and clears the
page. -/
def RemoveAndReturnOnlyChild (n : BPlusTreeInternalPage) :
    Int × BPlusTreeInternalPage :=
  (n.ValueAt 0, { n with entries := [] })

/-- Modelled from the spec: internal-node Lookup descends to the child whose
range holds the key — the largest i with key[i] <= key, returning child[i]
(spec section 4.3, Search). -/
def Lookup (n : BPlusTreeInternalPage) (key : Int) : Int :=
  let rec go : List (Int × Int) → Nat → Int → Int
    | [], _, acc => acc
    | e :: t, i, acc =>
      if 1 ≤ i ∧ cmpInt e.1 key ≠ 1 then go t (i + 1) e.2
      else if i = 0 then go t (i + 1) e.2
      else acc
  go n.entries 0 (-1)

end BPlusTreeInternalPage

/-! ## B+ tree state (src/index/b_plus_tree.cpp)

Pages holding tree nodes are modelled as a store from page id to node. The
transaction deleted-page set becomes `deleted_set`. `junk` models the stack
memory that the internal-node branch of BPlusTree::Coalesce writes through:
the source casts `neighbor_node` — the address of a local pointer variable —
to InternalPage* instead of dereferencing it, so those writes never reach the
neighbor page; the contents of that stack memory (and hence the page id that
moved children are reparented to) are indeterminate, fixed here by whatever
the scenario places in `junk`. -/

inductive TreeNode where
  | leafN : BPlusTreeLeafPage → TreeNode
  | internalN : BPlusTreeInternalPage → TreeNode

namespace TreeNode

/-- GetSize. -/
def nodeSize : TreeNode → Nat
  | leafN l => l.size
  | internalN n => n.size

/-- GetParentPageId. -/
def parentId : TreeNode → Int
  | leafN l => l.parent_page_id
  | internalN n => n.parent_page_id

/-- IsLeafPage. -/
def isLeaf : TreeNode → Bool
  | leafN _ => true
  | internalN _ => false

/-- SetParentPageId. -/
def withParent : TreeNode → Int → TreeNode
  | leafN l, p => leafN { l with parent_page_id := p }
  | internalN n, p => internalN { n with parent_page_id := p }

/-- GetMinSize (spec-modelled, see the leaf and internal versions). The
internal minimum is the ceiling of max / 2 children (spec section 3). -/
def minSize : TreeNode → Nat
  | leafN l => l.GetMinSize
  | internalN n => (n.max_size + 1) / 2

end TreeNode

/-- Store lookup. -/
def slookup (m : List (Int × TreeNode)) (k : Int) : Option TreeNode :=
  match m with
  | [] => none
  | (a, b) :: t => if a = k then some b else slookup t k

/-- Store update of an existing page. -/
def supdate (m : List (Int × TreeNode)) (k : Int) (n : TreeNode) :
    List (Int × TreeNode) :=
  match m with
  | [] => []
  | (a, b) :: t => if a = k then (a, n) :: t else (a, b) :: supdate t k n

structure TreeState where
  store : List (Int × TreeNode)
  root_page_id : Int
  leaf_max_size : Nat
  internal_max_size : Nat
  deleted_set : List Int
  junk : BPlusTreeInternalPage

namespace TreeState

/-- The node a fetched page holds (scenarios keep every touched page in the
store; a miss falls back to an empty leaf and is never exercised). -/
def getNode (ts : TreeState) (pid : Int) : TreeNode :=
  (slookup ts.store pid).getD (TreeNode.leafN (BPlusTreeLeafPage.Init (-1) (-1) 0))

/-- The fetched page reinterpreted as an internal node, as the source casts
parent pages. -/
def getInternal (ts : TreeState) (pid : Int) : BPlusTreeInternalPage :=
  match ts.getNode pid with
  | TreeNode.internalN n => n
  | TreeNode.leafN _ => { entries := [], max_size := 0, parent_page_id := -1, page_id := -1 }

/-- Write a node back through the buffer pool. -/
def setNode (ts : TreeState) (pid : Int) (n : TreeNode) : TreeState :=
  { ts with store := supdate ts.store pid n }

/-- child->SetParentPageId through the buffer pool. -/
def setParent (ts : TreeState) (pid par : Int) : TreeState :=
  ts.setNode pid ((ts.getNode pid).withParent par)

/-- Leaf keys of a stored page, for stating leaf-content facts. -/
def leafKeys (ts : TreeState) (pid : Int) : List Int :=
  match ts.getNode pid with
  | TreeNode.leafN l => l.keys
  | TreeNode.internalN _ => []

/-- Leaf entries of a stored page. -/
def leafEntries (ts : TreeState) (pid : Int) : List (Int × Int) :=
  match ts.getNode pid with
  | TreeNode.leafN l => l.entries
  | TreeNode.internalN _ => []

end TreeState

/-- Modelled from the spec: BPlusTreeInternalPage::MoveAllTo (spec section
4.3, coalesce semantics): append (parent_separator, right.child[0]) and then
the remaining (key, child) pairs of this page into the recipient, reparent
every moved child to the recipient page, clear this page. Returns (this page,
recipient, state with reparented children). -/
def internalMoveAllTo (self recipient : Bustub.BPlusTreeInternalPage)
    (middle_key : Int) (ts : TreeState) :
    BPlusTreeInternalPage × BPlusTreeInternalPage × TreeState :=
  let moved : List (Int × Int) :=
    match self.entries with
    | [] => []
    | e0 :: rest => (middle_key, e0.2) :: rest
  let recip := { recipient with entries := recipient.entries ++ moved }
  let ts1 := moved.foldl (fun acc e => acc.setParent e.2 recipient.page_id) ts
  ({ self with entries := [] }, recip, ts1)

/-- Modelled from the spec: BPlusTreeInternalPage::MoveFirstToEndOf (spec
section 4.3, redistribute semantics, internal variant): the recipient gains
(parent separator, this.child[0]) at its end, this page drops its first
entry, the moved child is reparented. Returns (this page, recipient, state). -/
def internalMoveFirstToEndOf (self recipient : BPlusTreeInternalPage)
    (middle_key : Int) (ts : TreeState) :
    BPlusTreeInternalPage × BPlusTreeInternalPage × TreeState :=
  match self.entries with
  | [] => (self, recipient, ts)
  | e0 :: rest =>
    let recip := { recipient with entries := recipient.entries ++ [(middle_key, e0.2)] }
    let ts1 := ts.setParent e0.2 recipient.page_id
    ({ self with entries := rest }, recip, ts1)

/-- Modelled from the spec: BPlusTreeInternalPage::MoveLastToFrontOf (spec
section 4.3, redistribute semantics, internal variant): the recipient gains
this.lastChild at its front with the parent separator keyed above the old
first child, this page drops its last entry, the moved child is reparented. -/
def internalMoveLastToFrontOf (self recipient : BPlusTreeInternalPage)
    (middle_key : Int) (ts : TreeState) :
    BPlusTreeInternalPage × BPlusTreeInternalPage × TreeState :=
  match self.entries.getLast? with
  | none => (self, recipient, ts)
  | some e =>
    let shifted :=
      match recipient.entries with
      | [] => []
      | f :: r => (middle_key, f.2) :: r
    let recip := { recipient with entries := (0, e.2) :: shifted }
    let ts1 := ts.setParent e.2 recipient.page_id
    ({ self with entries := self.entries.dropLast }, recip, ts1)

namespace BPlusTree

open Bustub.TreeState

/-- BPLUSTREE_TYPE::AdjustRoot (source lines 469-490). An oversized root is
left alone; a leaf root keeping one entry is left alone; a leaf root with
zero entries empties the tree (new_root_id stays INVALID_PAGE_ID); an
internal root promotes its only child and clears its parent pointer. Every
path returns false — including the promoted-child case, although the
function documentation says true means the root page should be deleted. -/
def AdjustRoot (ts : TreeState) (rootId : Int) : Bool × TreeState :=
  let node := ts.getNode rootId
  if 1 < node.nodeSize then (false, ts)
  else
    match node with
    | TreeNode.leafN l =>
      if l.size = 1 then (false, ts)
      else (false, { ts with root_page_id := -1 })
    | TreeNode.internalN n =>
      let (new_root_id, n1) := n.RemoveAndReturnOnlyChild
      let ts1 := ts.setNode rootId (TreeNode.internalN n1)
      let ts2 := ts1.setParent new_root_id (-1)
      (false, { ts2 with root_page_id := new_root_id })

/-- BPLUSTREE_TYPE::Redistribute (source lines 419-456). index = 0 moves the
first entry of the neighbor to the end of the node, otherwise the last entry
of the neighbor to the front of the node, updating the parent separator from
the new first key (leaf) or rotating the separator through the parent
(internal). -/
def Redistribute (ts : TreeState) (neighborId nodeId : Int) (index : Nat) :
    TreeState :=
  let node := ts.getNode nodeId
  let parent_page_id := node.parentId
  let parent := ts.getInternal parent_page_id
  match ts.getNode nodeId, ts.getNode neighborId with
  | TreeNode.leafN leaf_node, TreeNode.leafN neighbor_leaf_node =>
    if index = 0 then
      let (nb1, ln1) := neighbor_leaf_node.MoveFirstToEndOf leaf_node
      let index_insert := parent.ValueIndex nb1.page_id
      let parent1 := parent.SetKeyAt index_insert (nb1.KeyAt 0)
      (((ts.setNode nodeId (TreeNode.leafN ln1)).setNode neighborId
          (TreeNode.leafN nb1)).setNode parent_page_id (TreeNode.internalN parent1))
    else
      let (nb1, ln1) := neighbor_leaf_node.MoveLastToFrontOf leaf_node
      let index_insert := parent.ValueIndex ln1.page_id
      let parent1 := parent.SetKeyAt index_insert (ln1.KeyAt 0)
      (((ts.setNode nodeId (TreeNode.leafN ln1)).setNode neighborId
          (TreeNode.leafN nb1)).setNode parent_page_id (TreeNode.internalN parent1))
  | TreeNode.internalN internal_node, TreeNode.internalN neighbor_internal_node =>
    if index = 0 then
      let index_node := parent.ValueIndex neighbor_internal_node.page_id
      let middle_key := parent.KeyAt index_node
      let next_middle_key := neighbor_internal_node.KeyAt 1
      let (nb1, in1, ts1) :=
        internalMoveFirstToEndOf neighbor_internal_node internal_node middle_key ts
      let parent1 := parent.SetKeyAt index_node next_middle_key
      (((ts1.setNode nodeId (TreeNode.internalN in1)).setNode neighborId
          (TreeNode.internalN nb1)).setNode parent_page_id (TreeNode.internalN parent1))
    else
      let index_node := parent.ValueIndex internal_node.page_id
      let middle_key := parent.KeyAt index_node
      let next_middle_key := neighbor_internal_node.KeyAt (neighbor_internal_node.size - 1)
      let (nb1, in1, ts1) :=
        internalMoveLastToFrontOf neighbor_internal_node internal_node middle_key ts
      let parent1 := parent.SetKeyAt index_node next_middle_key
      (((ts1.setNode nodeId (TreeNode.internalN in1)).setNode neighborId
          (TreeNode.internalN nb1)).setNode parent_page_id (TreeNode.internalN parent1))
  | _, _ => ts

/-- Call tags for the mutually recursive CoalesceOrRedistribute / Coalesce
pair; recursion is structural on a fuel bound so the kernel can evaluate the
definitions (the C++ recursion climbs toward the root and terminates; every
scenario below supplies ample fuel). -/
inductive CorCall where
  | cor (nodeId : Int)
  | coal (neighborId nodeId parentId : Int) (index : Nat)

/-- One interpreter for BPLUSTREE_TYPE::CoalesceOrRedistribute (source lines
296-373) and BPLUSTREE_TYPE::Coalesce (source lines 387-408). The Bool result
is the source return value: for cor, whether the input node should be deleted
by the caller; for coal, whether the parent should be deleted.

In the coal internal-node branch the source builds the recipient as
reinterpret_cast of `neighbor_node` itself (an N**), not of `*neighbor_node`,
so MoveAllTo copies into the stack memory modelled by `ts.junk`, and the real
neighbor page in the store is never written. -/
def corRun : Nat → CorCall → TreeState → Bool × TreeState
  | 0, _, ts => (false, ts)
  | fuel + 1, CorCall.cor nodeId, ts =>
    let node := ts.getNode nodeId
    if node.parentId = -1 then AdjustRoot ts nodeId
    else
      let parent_page_id := node.parentId
      let parent := ts.getInternal parent_page_id
      let node_index := parent.ValueIndex nodeId
      let pre_page_id := parent.ValueAt (node_index - 1)
      let next_page_id := parent.ValueAt (node_index + 1)
      let pre_node := ts.getNode pre_page_id
      let next_node := ts.getNode next_page_id
      if 0 < node_index ∧ pre_node.minSize < pre_node.nodeSize then
        (false, Redistribute ts pre_page_id nodeId 1)
      else if node_index ≠ parent.size - 1 ∧ next_node.minSize < next_node.nodeSize then
        (false, Redistribute ts next_page_id nodeId 0)
      else if 0 < node_index then
        let (ret, ts1) := corRun fuel (CorCall.coal pre_page_id nodeId parent_page_id node_index) ts
        let ts2 := if ret then { ts1 with deleted_set := ts1.deleted_set ++ [parent_page_id] } else ts1
        (true, ts2)
      else
        let (ret, ts1) :=
          corRun fuel (CorCall.coal nodeId next_page_id parent_page_id (node_index + 1)) ts
        let ts2 := { ts1 with deleted_set := ts1.deleted_set ++ [next_page_id] }
        let ts3 := if ret then { ts2 with deleted_set := ts2.deleted_set ++ [parent_page_id] } else ts2
        (false, ts3)
  | fuel + 1, CorCall.coal neighborId nodeId parentId index, ts =>
    let ts1 :=
      match ts.getNode nodeId with
      | TreeNode.leafN temp_node =>
        match ts.getNode neighborId with
        | TreeNode.leafN temp_neighbor_node =>
          let (n1, r1) := temp_node.MoveAllTo temp_neighbor_node
          (ts.setNode nodeId (TreeNode.leafN n1)).setNode neighborId (TreeNode.leafN r1)
        | TreeNode.internalN _ => ts
      | TreeNode.internalN temp_node =>
        let middle_key := (ts.getInternal parentId).KeyAt index
        let (n1, junk1, tsr) := internalMoveAllTo temp_node ts.junk middle_key ts
        let tsr1 := tsr.setNode nodeId (TreeNode.internalN n1)
        { tsr1 with junk := junk1 }
    let parent1 := (ts1.getInternal parentId).Remove index
    let ts2 := ts1.setNode parentId (TreeNode.internalN parent1)
    if parent1.size < (TreeNode.internalN parent1).minSize then
      corRun fuel (CorCall.cor parentId) ts2
    else (false, ts2)

/-- BPLUSTREE_TYPE::CoalesceOrRedistribute. -/
def CoalesceOrRedistribute (fuel : Nat) (nodeId : Int) (ts : TreeState) :
    Bool × TreeState :=
  corRun fuel (CorCall.cor nodeId) ts

/-- The portion of BPLUSTREE_TYPE::Remove after FindLeafPageRW has located
the target leaf (source lines 265-284): bail out when the key is absent,
RemoveAt its index, run CoalesceOrRedistribute on underflow, and record the
leaf in the transaction deleted-page set when it is to be deleted. -/
def RemoveOnLeaf (fuel : Nat) (ts : TreeState) (leafId : Int) (key : Int) :
    TreeState :=
  match ts.getNode leafId with
  | TreeNode.internalN _ => ts
  | TreeNode.leafN leaf =>
    if !(leaf.CheckDuplicated key) then ts
    else
      let index := leaf.KeyIndex key
      let leaf1 := leaf.RemoveAt index
      let ts1 := ts.setNode leafId (TreeNode.leafN leaf1)
      let (ret, ts2) :=
        if leaf1.size < leaf1.GetMinSize then CoalesceOrRedistribute fuel leafId ts1
        else (false, ts1)
      if ret then { ts2 with deleted_set := ts2.deleted_set ++ [leafId] } else ts2

/-- The first step of BPLUSTREE_TYPE::FindLeafPageRW is
buffer_pool_manager_->FetchPage(root_page_id_), and FetchPageImpl asserts
page_id != INVALID_PAGE_ID, so fetching with an invalid root fails that
assertion. -/
def fetchTreePage (ts : TreeState) (pid : Int) :
    Except BufferPoolManager.Failure TreeNode :=
  if pid = -1 then Except.error BufferPoolManager.Failure.assertInvalidPageId
  else
    match slookup ts.store pid with
    | some n => Except.ok n
    | none => Except.error BufferPoolManager.Failure.pageMissing

/-- The descent loop of BPLUSTREE_TYPE::FindLeafPageRW (source lines
568-612), fueled; latch handling does not change which page is reached. -/
def findLeafGo : Nat → TreeState → Int → Int → Bool → Except BufferPoolManager.Failure Int
  | 0, _, pid, _, _ => Except.ok pid
  | fuel + 1, ts, pid, key, leftMost =>
    match fetchTreePage ts pid with
    | Except.error e => Except.error e
    | Except.ok (TreeNode.leafN _) => Except.ok pid
    | Except.ok (TreeNode.internalN internal_ptr) =>
      let next := if leftMost then internal_ptr.ValueAt 0 else internal_ptr.Lookup key
      findLeafGo fuel ts next key leftMost

/-- BPLUSTREE_TYPE::FindLeafPageRW from the root. -/
def FindLeafPageRW (ts : TreeState) (fuel : Nat) (key : Int) (leftMost : Bool) :
    Except BufferPoolManager.Failure Int :=
  findLeafGo fuel ts ts.root_page_id key leftMost

/-- BPLUSTREE_TYPE::begin (source lines 500-505): no IsEmpty check — it goes
straight to FindLeafPageRW with leftMost = true, whose first action fetches
root_page_id_. -/
def beginLeaf (ts : TreeState) (fuel : Nat) :
    Except BufferPoolManager.Failure Int :=
  FindLeafPageRW ts fuel 0 true

end BPlusTree

/-! ## Helper lemmas -/

theorem lgetD_set_self {α : Type} :
    ∀ (l : List α) (i : Nat) (a d : α), i < l.length →
      (l.set i a).getD i d = a := by
  intro l
  induction l with
  | nil => intro i a d h; simp at h
  | cons x t ih =>
    intro i a d h
    cases i with
    | zero => rfl
    | succ j =>
      have hj : j < t.length := by simpa using h
      simpa using ih j a d hj

theorem GetPage_SetPage_self (s : BufferPoolManager) (fid : Int) (p : Page)
    (h : fid.toNat < s.pages.length) : (s.SetPage fid p).GetPage fid = p := by
  show (s.pages.set fid.toNat p).getD fid.toNat Page.invalid = p
  exact lgetD_set_self _ _ _ _ h

/-- Strictly ascending key order, the leaf-traversal invariant of the spec. -/
def strictAscending : List Int → Bool
  | [] => true
  | [_] => true
  | a :: b :: t => decide (a < b) && strictAscending (b :: t)

/-! ## Concrete scenario states -/

/-- A single-leaf tree built by the source Insert path: keys 1, 2, 3 into a
fresh zeroed leaf with leaf_max_size 10 (no split is triggered). -/
def l3C1 : BPlusTreeLeafPage :=
  ((((BPlusTreeLeafPage.Init 1 (-1) 10).Insert 1 100).1.Insert 2 200).1.Insert 3 300).1

def tsC1 : TreeState :=
  { store := [(1, TreeNode.leafN l3C1)], root_page_id := 1, leaf_max_size := 10,
    internal_max_size := 10, deleted_set := [],
    junk := { entries := [], max_size := 0, parent_page_id := -1, page_id := 999 } }

/-- The tree after Remove(1) reaches the leaf. -/
def tsC1a : TreeState := BPlusTree.RemoveOnLeaf 10 tsC1 1 1

/-- Buffer pool with page 5 resident in frame 0, dirty, pin count 1. -/
def bpmC2 : BufferPoolManager :=
  { pool_size := 2,
    pages := [{ page_id := 5, pin_count := 1, is_dirty := true, data := 42 }, Page.invalid],
    page_table := [(5, 0)], free_list := [1], replacer := { capacity := 2, lru_list := [] },
    disk := [], next_page_id := 6, dealloc_log := [] }

def bpmC2res : Bool × BufferPoolManager :=
  match bpmC2.FlushPageImpl 5 with
  | Except.ok r => r
  | Except.error _ => (true, bpmC2)

/-- Buffer pool with page 5 resident in frame 0, clean, pin count 0 (frame 0
is an eviction candidate, as the invariants require). -/
def bpmC3 : BufferPoolManager :=
  { pool_size := 2,
    pages := [{ page_id := 5, pin_count := 0, is_dirty := false, data := 7 }, Page.invalid],
    page_table := [(5, 0)], free_list := [1], replacer := { capacity := 2, lru_list := [0] },
    disk := [(5, 7)], next_page_id := 6, dealloc_log := [] }

def bpmC3res : Bool × BufferPoolManager :=
  match bpmC3.DeletePageImpl 5 with
  | Except.ok r => r
  | Except.error _ => (true, bpmC3)

/-- Height-3 tree fragment for an internal coalesce: root 1 with internal
children 2, 3, 4 (separators 5 and 9); node 3 has underflowed to one child
while both siblings sit at their minimum, so CoalesceOrRedistribute must
coalesce node 3 into its left sibling 2. -/
def mkLeafC4 (pid par : Int) : TreeNode := TreeNode.leafN (BPlusTreeLeafPage.Init pid par 3)

def tsC4 : TreeState :=
  { store := [
      (1, TreeNode.internalN { entries := [(0, 2), (5, 3), (9, 4)], max_size := 4, parent_page_id := -1, page_id := 1 }),
      (2, TreeNode.internalN { entries := [(0, 10), (3, 11)], max_size := 4, parent_page_id := 1, page_id := 2 }),
      (3, TreeNode.internalN { entries := [(0, 12)], max_size := 4, parent_page_id := 1, page_id := 3 }),
      (4, TreeNode.internalN { entries := [(0, 14), (11, 15)], max_size := 4, parent_page_id := 1, page_id := 4 }),
      (10, mkLeafC4 10 2), (11, mkLeafC4 11 2), (12, mkLeafC4 12 3)],
    root_page_id := 1, leaf_max_size := 3, internal_max_size := 4, deleted_set := [],
    junk := { entries := [], max_size := 0, parent_page_id := -1, page_id := 999 } }

def rC4 : Bool × TreeState := BPlusTree.CoalesceOrRedistribute 10 3 tsC4

/-- Two-leaf tree whose root 1 is internal with children 2 and 3 (separator
7); each leaf holds one key, so removing key 7 from leaf 3 coalesces the
leaves and collapses the root. -/
def tsC5 : TreeState :=
  { store := [
      (1, TreeNode.internalN { entries := [(0, 2), (7, 3)], max_size := 3, parent_page_id := -1, page_id := 1 }),
      (2, TreeNode.leafN { arr := fun i => if i = 0 then (1, 100) else (0, 0), size := 1,
                           max_size := 3, parent_page_id := 1, page_id := 2,
                           next_page_id := 3, prev_page_id := -1 }),
      (3, TreeNode.leafN { arr := fun i => if i = 0 then (7, 700) else (0, 0), size := 1,
                           max_size := 3, parent_page_id := 1, page_id := 3,
                           next_page_id := -1, prev_page_id := 2 })],
    root_page_id := 1, leaf_max_size := 3, internal_max_size := 3, deleted_set := [],
    junk := { entries := [], max_size := 0, parent_page_id := -1, page_id := 999 } }

def tsC5a : TreeState := BPlusTree.RemoveOnLeaf 10 tsC5 3 7

/-- A tree whose root is a leaf with the single key 5. -/
def tsC5b : TreeState :=
  { store := [(1, TreeNode.leafN { arr := fun i => if i = 0 then (5, 50) else (0, 0), size := 1,
                                   max_size := 3, parent_page_id := -1, page_id := 1,
                                   next_page_id := -1, prev_page_id := -1 })],
    root_page_id := 1, leaf_max_size := 3, internal_max_size := 3, deleted_set := [],
    junk := { entries := [], max_size := 0, parent_page_id := -1, page_id := 999 } }

def tsC5c : TreeState := BPlusTree.RemoveOnLeaf 10 tsC5b 1 5

/-- The empty tree: root_page_id is INVALID_PAGE_ID. -/
def tsC6 : TreeState :=
  { store := [], root_page_id := -1, leaf_max_size := 3, internal_max_size := 3,
    deleted_set := [],
    junk := { entries := [], max_size := 0, parent_page_id := -1, page_id := 999 } }

/-- Buffer pool with page 5 resident in frame 0, clean, pin count already 0. -/
def bpmC9 : BufferPoolManager :=
  { pool_size := 2,
    pages := [{ page_id := 5, pin_count := 0, is_dirty := false, data := 7 }, Page.invalid],
    page_table := [(5, 0)], free_list := [1], replacer := { capacity := 2, lru_list := [0] },
    disk := [(5, 7)], next_page_id := 6, dealloc_log := [] }

/-- A fresh buffer pool of two frames. -/
def bpmC10 : BufferPoolManager :=
  { pool_size := 2, pages := [Page.invalid, Page.invalid], page_table := [],
    free_list := [0, 1], replacer := { capacity := 2, lru_list := [] },
    disk := [], next_page_id := 1, dealloc_log := [] }

def bpmC10ga : BufferPoolManager := bpmC10.GetAvailableFrame.2

def bpmC10after : BufferPoolManager := bpmC10.NewPageImpl.2

/-! ## Claim theorems -/

/-- C1: the claim states that after Remove(k) deletes an entry from a leaf via
RemoveAt, the remaining entries are exactly the previous entries minus k,
still sorted and without duplicates, and that leaf traversal stays strictly
ascending. Evaluating the source Remove path at the failing input refutes it:
from the leaf [1, 2, 3] built by three source Inserts, removing key 1 leaves
the keys [2, 2] — not the expected [2, 3], not strictly ascending, and with a
duplicate — because the shift loop of RemoveAt stops one slot early. -/
theorem C1_removeAt_off_by_one :
    tsC1.leafKeys 1 = [1, 2, 3] ∧
    tsC1a.leafKeys 1 = [2, 2] ∧
    tsC1a.leafKeys 1 ≠ [2, 3] ∧
    strictAscending (tsC1.leafKeys 1) = true ∧
    strictAscending (tsC1a.leafKeys 1) = false := by
  decide

/-- C2: the claim states that FlushPage writes a resident dirty page and does
not evict — page table, frame binding and free list unchanged. Evaluating the
source at a resident dirty page (even one with pin count 1) refutes the
non-eviction part: the page-table entry is erased, the frame is reset, and
the frame is appended to the free list. The write-back itself does happen. -/
theorem C2_flushPage_evicts :
    bpmC2.GetFrame 5 = 0 ∧
    (bpmC2.GetPage 0).pin_count = 1 ∧
    (bpmC2.GetPage 0).is_dirty = true ∧
    bpmC2.FlushPageImpl 5 = Except.ok bpmC2res ∧
    bpmC2res.1 = false ∧
    alookup bpmC2res.2.page_table 5 = none ∧
    bpmC2res.2.free_list = [1, 0] ∧
    bpmC2res.2.GetPage 0 = Page.invalid ∧
    dlookup bpmC2res.2.disk 5 = some 42 := by
  refine ⟨by decide, by decide, by decide, rfl, by decide, by decide, by decide, by decide, by decide⟩

/-- C3: the claim states that DeletePage returns true when the page is absent
or when it was resident, unpinned and has been removed. Evaluating the source
refutes the second half: for resident page 5 with pin count 0 the page is
removed (page-table entry gone, frame reset and freed, DeallocatePage
logged) yet the call returns false. The absent case does return true and
deallocates. -/
theorem C3_deletePage_returns_false_after_removal :
    bpmC3.GetFrame 5 = 0 ∧
    (bpmC3.GetPage 0).pin_count = 0 ∧
    bpmC3.DeletePageImpl 5 = Except.ok bpmC3res ∧
    bpmC3res.1 = false ∧
    alookup bpmC3res.2.page_table 5 = none ∧
    (5 : Int) ∈ bpmC3res.2.dealloc_log ∧
    bpmC3res.2.free_list = [1, 0] ∧
    bpmC3.DeletePageImpl 9 =
      Except.ok (true, { bpmC3 with dealloc_log := bpmC3.dealloc_log ++ [9] }) := by
  refine ⟨by decide, by decide, rfl, by decide, by decide, by decide, by decide, rfl⟩

/-- C4: the claim states that coalescing two adjacent internal nodes appends
(parent_separator, right.child[0]) and the remaining pairs of the right node
onto the left node, reparenting moved children to the left node. Evaluating
the source on a concrete internal coalesce refutes it: the left sibling
(page 2) is left unchanged instead of receiving [(5, 12)], the moved pairs
land in the stack memory behind the miscast neighbor_node pointer (junk), and
the moved child 12 is reparented to the junk page id 999, not to page 2. The
parent entry for the right node is removed and the right node is emptied. -/
theorem C4_internal_coalesce_misses_recipient :
    (tsC4.getInternal 2).entries = [(0, 10), (3, 11)] ∧
    rC4.1 = true ∧
    (rC4.2.getInternal 2).entries = [(0, 10), (3, 11)] ∧
    (rC4.2.getInternal 2).entries ≠ [(0, 10), (3, 11), (5, 12)] ∧
    rC4.2.junk.entries = [(5, 12)] ∧
    (rC4.2.getNode 12).parentId = 999 ∧
    (rC4.2.getNode 12).parentId ≠ 2 ∧
    (rC4.2.getInternal 1).entries = [(0, 2), (9, 4)] ∧
    (rC4.2.getInternal 3).entries = [] := by
  decide

/-- C5: the claim states that when the root underflows, an internal root with
one child promotes that child (clearing its parent pointer) and the old root
page is marked for deletion and subsequently deleted, while a leaf root with
zero entries empties the tree. Evaluating the source refutes the marking
part: after the coalesce that collapses root 1 onto child 2, the new root is
2 with parent INVALID and the merged-away leaf 3 is in the deleted set, but
the old root 1 is never added to it (AdjustRoot returns false on every path).
The leaf-root case does empty the tree. -/
theorem C5_adjustRoot_old_root_not_marked :
    tsC5a.root_page_id = 2 ∧
    (tsC5a.getNode 2).parentId = -1 ∧
    (3 : Int) ∈ tsC5a.deleted_set ∧
    (1 : Int) ∉ tsC5a.deleted_set ∧
    tsC5c.root_page_id = -1 ∧
    tsC5c.deleted_set = [] := by
  decide

/-- C6: the claim states that constructing a forward iterator on an empty
tree yields end() immediately without failing any assertion or fetching an
invalid page. Evaluating the source refutes it: begin() performs no IsEmpty
check and FindLeafPageRW immediately fetches root_page_id = INVALID_PAGE_ID,
which fails the assert page_id != INVALID_PAGE_ID in FetchPageImpl. -/
theorem C6_begin_empty_tree_asserts :
    tsC6.root_page_id = -1 ∧
    BPlusTree.beginLeaf tsC6 5 =
      Except.error BufferPoolManager.Failure.assertInvalidPageId :=
  ⟨rfl, rfl⟩

/-- The LRU scenario of the spec: Pin a, b, c then Unpin a, Unpin b, Unpin c
on an empty replacer of the given capacity. -/
def lruScenario (a b c : Int) (cap : Nat) : LRUReplacer :=
  (((((({ capacity := cap, lru_list := [] } : LRUReplacer).Pin a).Pin b).Pin
      c).Unpin a).Unpin b).Unpin c

/-- C7: the replacer implements LRU by order of most-recent Unpin. Victim on
an empty candidate set reports absence; Victim on any state removes and
returns the least-recently-unpinned candidate (the back of the recency
list); and after Pin a, b, c followed by Unpin a, Unpin b, Unpin c, three
successive Victim calls return a, then b, then c, leaving the set empty. -/
theorem C7_lru_victim_order (a b c : Int) (cap : Nat)
    (hab : a ≠ b) (hac : a ≠ c) (hbc : b ≠ c) (hcap : 3 ≤ cap) :
    (LRUReplacer.Victim { capacity := cap, lru_list := [] }).1 = none ∧
    (∀ (r : LRUReplacer) (x : Int) (l : List Int), r.lru_list = l ++ [x] →
      r.Victim = (some x, { r with lru_list := l })) ∧
    (lruScenario a b c cap).Victim.1 = some a ∧
    (lruScenario a b c cap).Victim.2.Victim.1 = some b ∧
    (lruScenario a b c cap).Victim.2.Victim.2.Victim.1 = some c ∧
    (lruScenario a b c cap).Victim.2.Victim.2.Victim.2.lru_list = [] := by
  have hc0 : 0 < cap := by omega
  have hc1 : 1 < cap := by omega
  have hc2 : 2 < cap := by omega
  have h0 : (((({ capacity := cap, lru_list := [] } : LRUReplacer).Pin a).Pin b).Pin c) =
      { capacity := cap, lru_list := [] } := by
    simp [LRUReplacer.Pin]
  have h1 : ({ capacity := cap, lru_list := [] } : LRUReplacer).Unpin a =
      { capacity := cap, lru_list := [a] } := by
    simp [LRUReplacer.Unpin, LRUReplacer.trimLoop, hc0]
  have h2 : ({ capacity := cap, lru_list := [a] } : LRUReplacer).Unpin b =
      { capacity := cap, lru_list := [b, a] } := by
    simp [LRUReplacer.Unpin, LRUReplacer.trimLoop, hc1, Ne.symm hab]
  have h3 : ({ capacity := cap, lru_list := [b, a] } : LRUReplacer).Unpin c =
      { capacity := cap, lru_list := [c, b, a] } := by
    simp [LRUReplacer.Unpin, LRUReplacer.trimLoop, hc2, Ne.symm hac, Ne.symm hbc]
  have hs : lruScenario a b c cap = { capacity := cap, lru_list := [c, b, a] } := by
    unfold lruScenario
    rw [h0, h1, h2, h3]
  refine ⟨rfl, ?_, ?_, ?_, ?_, ?_⟩
  · intro r x l hr
    simp [LRUReplacer.Victim, hr]
  · rw [hs]
    exact rfl
  · rw [hs]
    exact rfl
  · rw [hs]
    exact rfl
  · rw [hs]
    exact rfl

/-- Witness for C7 at a = 0, b = 1, c = 2, capacity 3. -/
theorem C7_lru_victim_order_witness :
    ((0 : Int) ≠ 1 ∧ (0 : Int) ≠ 2 ∧ (1 : Int) ≠ 2 ∧ 3 ≤ 3) ∧
    ((LRUReplacer.Victim { capacity := 3, lru_list := [] }).1 = none ∧
     (∀ (r : LRUReplacer) (x : Int) (l : List Int), r.lru_list = l ++ [x] →
        r.Victim = (some x, { r with lru_list := l })) ∧
     (lruScenario 0 1 2 3).Victim.1 = some 0 ∧
     (lruScenario 0 1 2 3).Victim.2.Victim.1 = some 1 ∧
     (lruScenario 0 1 2 3).Victim.2.Victim.2.Victim.1 = some 2 ∧
     (lruScenario 0 1 2 3).Victim.2.Victim.2.Victim.2.lru_list = []) :=
  ⟨⟨by decide, by decide, by decide, by decide⟩,
   C7_lru_victim_order 0 1 2 3 (by decide) (by decide) (by decide) (by decide)⟩

/-- C8 counterexample: with capacity 1, Unpin(0) makes frame 0 a candidate,
and a subsequent Unpin(1) evicts frame 0 from the candidate set — refuting
the claim that Unpin removes no other frame and does not enforce capacity. -/
theorem C8_unpin_eviction_counterexample :
    (0 : Int) ∈ (({ capacity := 1, lru_list := [] } : LRUReplacer).Unpin 0).lru_list ∧
    (0 : Int) ∉ ((({ capacity := 1, lru_list := [] } : LRUReplacer).Unpin 0).Unpin 1).lru_list ∧
    ((({ capacity := 1, lru_list := [] } : LRUReplacer).Unpin 0).Unpin 1).lru_list = [1] := by
  decide

/-- C8 amended: Unpin(f) is a no-op when f is already present; when f is
absent it pushes f as most-recently-unpinned after first evicting
least-recently-unpinned candidates while the candidate count is at or above
capacity — so below capacity no other frame is removed, while at capacity the
replacer does enforce its capacity during Unpin, keeping only the first
capacity - 1 candidates. -/
theorem C8_unpin_amended (r : LRUReplacer) (f : Int) (hf : f ∉ r.lru_list) :
    (r.Unpin f).lru_list = f :: LRUReplacer.trimLoop r.capacity r.lru_list ∧
    (r.lru_list.length < r.capacity → (r.Unpin f).lru_list = f :: r.lru_list) ∧
    (r.capacity ≤ r.lru_list.length →
      (r.Unpin f).lru_list = f :: r.lru_list.take (r.capacity - 1)) ∧
    (∀ (s : LRUReplacer) (g : Int), g ∈ s.lru_list → s.Unpin g = s) := by
  refine ⟨?_, ?_, ?_, ?_⟩
  · rw [Unpin_not_mem r f hf]
  · intro hlt
    rw [Unpin_not_mem r f hf, trimLoop_of_lt _ _ hlt]
  · intro hge
    rw [Unpin_not_mem r f hf]
    simp [LRUReplacer.trimLoop, Nat.not_lt.mpr hge]
  · intro s g hg
    exact Unpin_mem s g hg

/-- Witness for C8 at a replacer of capacity 2 holding candidates [5, 6],
unpinning absent frame 7. -/
theorem C8_unpin_amended_witness :
    ((7 : Int) ∉ ({ capacity := 2, lru_list := [5, 6] } : LRUReplacer).lru_list) ∧
    ((({ capacity := 2, lru_list := [5, 6] } : LRUReplacer).Unpin 7).lru_list =
        7 :: LRUReplacer.trimLoop 2 [5, 6] ∧
     (([5, 6] : List Int).length < 2 →
        (({ capacity := 2, lru_list := [5, 6] } : LRUReplacer).Unpin 7).lru_list = [7, 5, 6]) ∧
     (2 ≤ ([5, 6] : List Int).length →
        (({ capacity := 2, lru_list := [5, 6] } : LRUReplacer).Unpin 7).lru_list =
          7 :: ([5, 6] : List Int).take 1) ∧
     (∀ (s : LRUReplacer) (g : Int), g ∈ s.lru_list → s.Unpin g = s)) :=
  ⟨by decide, C8_unpin_amended { capacity := 2, lru_list := [5, 6] } 7 (by decide)⟩

/-- C9: for a resident page whose pin count is already 0, UnpinPage(pid, true)
returns false but has already set the frame dirty bit before the failing
pin-count check — the error path mutates state. -/
theorem C9_unpin_sets_dirty_on_error (s : BufferPoolManager) (pid fid : Int)
    (hres : s.GetFrame pid = fid) (hfid : fid ≠ -1)
    (hlen : fid.toNat < s.pages.length)
    (hpin : (s.GetPage fid).pin_count = 0) :
    (s.UnpinPageImpl pid true).1 = false ∧
    ((s.UnpinPageImpl pid true).2.GetPage fid).is_dirty = true := by
  rcases hP : s.GetPage fid with ⟨pgid, pc, dty, dat⟩
  have hpc : pc = 0 := by
    rw [hP] at hpin
    exact hpin
  subst hpc
  have hun : s.UnpinPageImpl pid true =
      (false, s.SetPage fid { page_id := pgid, pin_count := 0, is_dirty := true, data := dat }) := by
    unfold BufferPoolManager.UnpinPageImpl
    rw [hres, if_neg hfid, hP]
    exact rfl
  rw [hun]
  refine ⟨rfl, ?_⟩
  rw [GetPage_SetPage_self s fid _ hlen]

/-- Witness for C9 at a pool where page 5 sits clean and unpinned in
frame 0. -/
theorem C9_unpin_sets_dirty_on_error_witness :
    (bpmC9.GetFrame 5 = 0 ∧ (0 : Int) ≠ -1 ∧ (0 : Int).toNat < bpmC9.pages.length ∧
     (bpmC9.GetPage 0).pin_count = 0) ∧
    ((bpmC9.UnpinPageImpl 5 true).1 = false ∧
     ((bpmC9.UnpinPageImpl 5 true).2.GetPage 0).is_dirty = true) :=
  ⟨⟨by decide, by decide, by decide, by decide⟩,
   C9_unpin_sets_dirty_on_error bpmC9 5 0 (by decide) (by decide) (by decide) (by decide)⟩

/-- C10: every successful NewPage call persists the zeroed page image to disk
via WritePage before returning, and the returned page sits in a frame that is
pinned (pin count 1), clean, zeroed, and mapped in the page table. The
hypotheses record the successful frame acquisition, that the acquired frame
id is in range, and that the freshly allocated page id is not already
resident — all true of every reachable successful call. -/
theorem C10_newPage_writes_zeros (s s1 s2 : BufferPoolManager) (fid pid : Int)
    (hga : s.GetAvailableFrame = (fid, s1)) (hfid : fid ≠ -1)
    (hlen : fid.toNat < s1.pages.length)
    (hfresh : alookup s1.page_table s1.next_page_id = none)
    (h : s.NewPageImpl = (some pid, s2)) :
    dlookup s2.disk pid = some 0 ∧
    alookup s2.page_table pid = some fid ∧
    s2.GetPage fid = { page_id := pid, pin_count := 1, is_dirty := false, data := 0 } := by
  unfold BufferPoolManager.NewPageImpl at h
  rw [hga] at h
  simp only [if_neg hfid, Prod.mk.injEq, Option.some.injEq] at h
  obtain ⟨hpid, hs2⟩ := h
  subst hpid
  subst hs2
  refine ⟨?_, ?_, ?_⟩
  · exact dlookup_dwrite_self _ _ _
  · exact alookup_ainsert_self _ _ _ hfresh
  · have hgp := GetPage_SetPage_self s1 fid
      { (s1.GetPage fid).ResetAll with page_id := s1.next_page_id, pin_count := 1 } hlen
    show (s1.SetPage fid { (s1.GetPage fid).ResetAll with page_id := s1.next_page_id, pin_count := 1 }).GetPage fid = _
    rw [hgp]
    exact rfl

/-- Witness for C10 at a fresh two-frame pool: the first NewPage returns page
1 in frame 0. -/
theorem C10_newPage_writes_zeros_witness :
    (bpmC10.GetAvailableFrame = (0, bpmC10ga) ∧ (0 : Int) ≠ -1 ∧
     (0 : Int).toNat < bpmC10ga.pages.length ∧
     alookup bpmC10ga.page_table bpmC10ga.next_page_id = none ∧
     bpmC10.NewPageImpl = (some 1, bpmC10after)) ∧
    (dlookup bpmC10after.disk 1 = some 0 ∧
     alookup bpmC10after.page_table 1 = some 0 ∧
     bpmC10after.GetPage 0 = { page_id := 1, pin_count := 1, is_dirty := false, data := 0 }) :=
  ⟨⟨rfl, by decide, by decide, rfl, rfl⟩,
   C10_newPage_writes_zeros bpmC10 bpmC10ga bpmC10after 0 1 rfl (by decide) (by decide)
     rfl rfl⟩

end Bustub
